import Mathlib

/-!
Shallow embedding of the crawl-orchestration core of the financial-news
collector: the deduplication engine (`src/processors/deduplicator.py`),
the article data model (`src/models.py`), the publish-time extraction
cascade (`src/extractors/article_extractor.py`), the RSS feed-URL probing
(`src/spiders/rss_spider.py`) and the orchestrator loop
(`src/scheduler.py`).  Pure Python functions become Lean functions;
the mutable `Deduplicator` object becomes explicit state passing;
code that can raise returns `Except`/`Option`.  Python `str` is modelled
by `String` restricted to the character classes the code manipulates
(ASCII word/space classes for the regex character classes `\w`/`\s`).
-/

namespace NewsCollector

/-! ## Character and string helpers -/

/-- ASCII decimal digit test, modelling the regex class `\d` on the
ASCII fragment. -/
def isDigitChar (c : Char) : Bool :=
  '0' ≤ c && c ≤ '9'

/-- Numeric value of a digit character. -/
def charDigit (c : Char) : Nat :=
  c.toNat - 48

/-- Digit character for a value `d < 10`. -/
def digitChar (d : Nat) : Char :=
  Char.ofNat (48 + d)

/-- Little-endian digit string of `n`, zero-padded on the high side to
width `w`.  Models Python `"%0*d" % (w, n)` (built here from
`Nat.digits` so that decoding lemmas are available). -/
def padNumLE (w n : Nat) : List Char :=
  (Nat.digits 10 n).map digitChar ++
    List.replicate (w - (Nat.digits 10 n).length) '0'

/-- Zero-padded big-endian decimal rendering of `n` to width `w`. -/
def padNum (w n : Nat) : List Char :=
  (padNumLE w n).reverse

/-- Decimal value of a little-endian digit-character list. -/
def readNumLE (cs : List Char) : Nat :=
  Nat.ofDigits 10 (cs.map charDigit)

/-- Decimal value of a big-endian digit-character list. -/
def readNum (cs : List Char) : Nat :=
  readNumLE cs.reverse

/-- Read exactly `w` decimal digits from the front of `cs`; returns the
value and the remaining characters. -/
def readFixed (w : Nat) (cs : List Char) : Option (Nat × List Char) :=
  let pre := cs.take w
  if pre.length = w && pre.all isDigitChar then
    some (readNum pre, cs.drop w)
  else
    none

/-- Require character `c` at the front of the input. -/
def expectChar (c : Char) : List Char → Option (List Char)
  | [] => none
  | x :: xs => if x = c then some xs else none

/-- ASCII model of Python `str.lower`. -/
def pyLower (s : String) : String :=
  ⟨s.data.map Char.toLower⟩

/-- ASCII model of the regex word class `\w` (alphanumeric or
underscore). -/
def isWordChar (c : Char) : Bool :=
  c.isAlphanum || c = '_'

/-- ASCII model of the regex space class `\s` / Python `str.split`
whitespace. -/
def isSpaceChar (c : Char) : Bool :=
  c = ' ' || c = '\t' || c = '\n' || c = '\r' || c = '\x0b' || c = '\x0c'

/-- Split a character list on whitespace runs, dropping empty chunks:
the model of Python `str.split()` with no argument. -/
def splitWs : List Char → List (List Char)
  | [] => []
  | c :: cs =>
    if isSpaceChar c then splitWs cs
    else
      match splitWs cs with
      | [] => [[c]]
      | w :: ws =>
        match cs with
        | [] => [[c]]
        | c' :: _ => if isSpaceChar c' then [c] :: w :: ws else (c :: w) :: ws

/-- Substring test on character lists: models Python `needle in haystack`. -/
def containsSub (needle : List Char) : List Char → Bool
  | [] => needle.isEmpty
  | c :: cs => needle.isPrefixOf (c :: cs) || containsSub needle cs

/-! ## Datetimes

Model of the Python `datetime.datetime` values flowing through the
collector: year/month/day/hour/minute/second/microsecond plus an
optional fixed UTC offset in minutes (the only offsets the code can
construct come from `strptime`'s `%z` and ISO strings, both of whole
minutes).  `valid` mirrors the constructor's range checks. -/

structure DateTime where
  year : Nat
  month : Nat
  day : Nat
  hour : Nat
  minute : Nat
  second : Nat
  usec : Nat
  tz : Option Int
deriving DecidableEq, Repr

/-- Gregorian leap-year test, as in Python's `calendar.isleap`. -/
def isLeapYear (y : Nat) : Bool :=
  (y % 4 = 0 && y % 100 ≠ 0) || y % 400 = 0

/-- Number of days in a month, as validated by `datetime`'s
constructor. -/
def daysInMonth (y m : Nat) : Nat :=
  if m = 2 then (if isLeapYear y then 29 else 28)
  else if m = 4 || m = 6 || m = 9 || m = 11 then 30
  else 31

/-- The range constraints enforced by the `datetime` constructor. -/
def DateTime.validRanges (t : DateTime) : Bool :=
  1 ≤ t.year && t.year ≤ 9999 &&
  1 ≤ t.month && t.month ≤ 12 &&
  1 ≤ t.day && t.day ≤ daysInMonth t.year t.month &&
  t.hour ≤ 23 && t.minute ≤ 59 && t.second ≤ 59 && t.usec ≤ 999999 &&
  (match t.tz with
   | none => true
   | some m => -1439 ≤ m && m ≤ 1439)

/-- A `DateTime` representable as a Python `datetime` value. -/
def DateTime.valid (t : DateTime) : Prop :=
  t.validRanges = true

instance (t : DateTime) : Decidable t.valid := by
  unfold DateTime.valid; infer_instance

/-- `YYYY-MM-DD` character rendering shared by `isoformat` and `str`. -/
def DateTime.dateChars (t : DateTime) : List Char :=
  padNum 4 t.year ++ '-' :: (padNum 2 t.month ++ '-' :: padNum 2 t.day)

/-- `HH:MM:SS[.ffffff]` character rendering: seconds always printed,
microseconds printed exactly when nonzero, as Python does. -/
def DateTime.timeChars (t : DateTime) : List Char :=
  padNum 2 t.hour ++ ':' :: (padNum 2 t.minute ++ ':' :: (padNum 2 t.second ++
    (if t.usec = 0 then [] else '.' :: padNum 6 t.usec)))

/-- `±HH:MM` UTC-offset suffix, empty for a naive datetime. -/
def DateTime.tzChars (t : DateTime) : List Char :=
  match t.tz with
  | none => []
  | some m =>
    let a := m.natAbs
    (if m < 0 then '-' else '+') :: (padNum 2 (a / 60) ++ ':' :: padNum 2 (a % 60))

/-- Model of `datetime.isoformat()` (default separator `'T'`). -/
def DateTime.isoformat (t : DateTime) : String :=
  ⟨t.dateChars ++ 'T' :: (t.timeChars ++ t.tzChars)⟩

/-- Model of `str(datetime)`: the same rendering with a space
separator. -/
def DateTime.pyStr (t : DateTime) : String :=
  ⟨t.dateChars ++ ' ' :: (t.timeChars ++ t.tzChars)⟩

/-- Split at the first `'+'`/`'-'` sign: Python's
`_parse_isoformat_time` separates the time-of-day part from the
UTC-offset part this way. -/
def splitAtSign : List Char → List Char × Option (Char × List Char)
  | [] => ([], none)
  | c :: cs =>
    if c = '+' || c = '-' then ([], some (c, cs))
    else
      let r := splitAtSign cs
      (c :: r.1, r.2)

/-- Parse the fractional-second part: empty, or `.fff` / `.ffffff`
(three or six digits), as `datetime.fromisoformat` accepts. -/
def parseFrac : List Char → Option Nat
  | [] => some 0
  | '.' :: rest =>
    if rest.length = 3 && rest.all isDigitChar then some (readNum rest * 1000)
    else if rest.length = 6 && rest.all isDigitChar then some (readNum rest)
    else none
  | _ => none

/-- Parse `HH[:MM[:SS[.fff[fff]]]]`, the time-of-day grammar of
`datetime.fromisoformat`. -/
def parseTimeOfDay (cs : List Char) : Option (Nat × Nat × Nat × Nat) :=
  (readFixed 2 cs).bind fun hr =>
    match hr.2 with
    | [] => some (hr.1, 0, 0, 0)
    | ':' :: r2 =>
      (readFixed 2 r2).bind fun mr =>
        match mr.2 with
        | [] => some (hr.1, mr.1, 0, 0)
        | ':' :: r3 =>
          (readFixed 2 r3).bind fun sr =>
            (parseFrac sr.2).map fun us => (hr.1, mr.1, sr.1, us)
        | _ => none
    | _ => none

/-- Parse the `HH:MM` UTC-offset body following a sign. -/
def parseTzBody (sign : Char) (cs : List Char) : Option Int :=
  (readFixed 2 cs).bind fun hr =>
    (expectChar ':' hr.2).bind fun r2 =>
      (readFixed 2 r2).bind fun mr =>
        match mr.2 with
        | [] =>
          let a : Int := hr.1 * 60 + mr.1
          some (if sign = '-' then -a else a)
        | _ => none

/-- Model of `datetime.fromisoformat`: `YYYY-MM-DD` optionally followed
by a one-character separator and `HH[:MM[:SS[.fff[fff]]]][±HH:MM]`;
the resulting fields must pass the constructor's range checks. -/
def fromisoformat (s : String) : Option DateTime :=
  (readFixed 4 s.data).bind fun yr =>
    (expectChar '-' yr.2).bind fun r1 =>
      (readFixed 2 r1).bind fun mor =>
        (expectChar '-' mor.2).bind fun r2 =>
          (readFixed 2 r2).bind fun dayr =>
            (match dayr.2 with
             | [] => some (0, 0, 0, 0, (none : Option Int))
             | _ :: tcs =>
               let sp := splitAtSign tcs
               (parseTimeOfDay sp.1).bind fun tod =>
                 match sp.2 with
                 | none => some (tod.1, tod.2.1, tod.2.2.1, tod.2.2.2, none)
                 | some sgn =>
                   (parseTzBody sgn.1 sgn.2).map fun off =>
                     (tod.1, tod.2.1, tod.2.2.1, tod.2.2.2, some off)).bind
              fun fields =>
                let t : DateTime :=
                  { year := yr.1, month := mor.1, day := dayr.1,
                    hour := fields.1, minute := fields.2.1,
                    second := fields.2.2.1, usec := fields.2.2.2.1,
                    tz := fields.2.2.2.2 }
                if t.validRanges then some t else none

/-! ## `strptime`

Model of `datetime.strptime` for the format strings appearing in
`ArticleExtractor._parse_time`.  Each numeric directive matches the
ordered regex alternation CPython's `_strptime` compiles for it
(two digits in range preferred, one digit accepted); a literal space
in the format matches a run of whitespace; the pattern is compiled
case-insensitively, so the literal `T` also matches `t`; the whole
input must be consumed; out-of-range dates raise `ValueError`, which
the caller treats as a failed format. -/

inductive FmtTok where
  | lit (c : Char)
  | litT
  | ws
  | year4
  | month
  | day
  | hour
  | minute
  | second
  | tzoff
deriving DecidableEq, Repr

structure StrpFields where
  year : Option Nat := none
  month : Option Nat := none
  day : Option Nat := none
  hour : Option Nat := none
  minute : Option Nat := none
  second : Option Nat := none
  tz : Option Int := none
deriving DecidableEq, Repr

/-- A one-or-two-digit numeric directive: two digits whose value
satisfies `twoOk` are preferred, otherwise one digit satisfying
`oneOk`, matching the compiled alternation order. -/
def readNumField (twoOk oneOk : Nat → Bool) : List Char → Option (Nat × List Char)
  | c1 :: c2 :: rest =>
    if isDigitChar c1 && isDigitChar c2 &&
        twoOk (10 * charDigit c1 + charDigit c2) then
      some (10 * charDigit c1 + charDigit c2, rest)
    else if isDigitChar c1 && oneOk (charDigit c1) then
      some (charDigit c1, c2 :: rest)
    else none
  | [c1] =>
    if isDigitChar c1 && oneOk (charDigit c1) then some (charDigit c1, [])
    else none
  | [] => none

/-- Drop leading whitespace characters. -/
def dropWs : List Char → List Char
  | [] => []
  | c :: cs => if isSpaceChar c then dropWs cs else c :: cs

/-- Skip one optional colon. -/
def skipColon : List Char → List Char
  | ':' :: r => r
  | cs => cs

/-- `%z`: `Z` or `[+-]HH[:]MM` with an optional seconds group; the
offset is kept in whole minutes (no code path in this repository
produces a sub-minute offset). -/
def readTzOff : List Char → Option (Int × List Char)
  | [] => none
  | 'Z' :: rest => some (0, rest)
  | s :: rest =>
    if s = '+' || s = '-' then
      (readFixed 2 rest).bind fun hr =>
        (readFixed 2 (skipColon hr.2)).bind fun mr =>
          let base : Int := hr.1 * 60 + mr.1
          let off : Int := if s = '-' then -base else base
          match readFixed 2 (skipColon mr.2) with
          | some sr =>
            match sr.2 with
            | '.' :: ds =>
              if 1 ≤ (ds.takeWhile isDigitChar).length ∧
                  (ds.takeWhile isDigitChar).length ≤ 6 then
                some (off, ds.dropWhile isDigitChar)
              else some (off, mr.2)
            | r => some (off, r)
          | none => some (off, mr.2)
    else none

/-- Run a tokenized format over the input, recording matched fields;
fails unless the whole input is consumed. -/
def runFmtToks : List FmtTok → StrpFields → List Char → Option StrpFields
  | [], f, cs => if cs.isEmpty then some f else none
  | tok :: toks, f, cs =>
    match tok with
    | .lit c => (expectChar c cs).bind (runFmtToks toks f)
    | .litT =>
      match cs with
      | x :: rest => if x = 'T' || x = 't' then runFmtToks toks f rest else none
      | [] => none
    | .ws =>
      match cs with
      | x :: rest => if isSpaceChar x then runFmtToks toks f (dropWs rest) else none
      | [] => none
    | .year4 =>
      (readFixed 4 cs).bind fun r => runFmtToks toks { f with year := some r.1 } r.2
    | .month =>
      (readNumField (fun v => 1 ≤ v && v ≤ 12) (fun v => 1 ≤ v && v ≤ 9) cs).bind
        fun r => runFmtToks toks { f with month := some r.1 } r.2
    | .day =>
      (readNumField (fun v => 1 ≤ v && v ≤ 31) (fun v => 1 ≤ v && v ≤ 9) cs).bind
        fun r => runFmtToks toks { f with day := some r.1 } r.2
    | .hour =>
      (readNumField (fun v => v ≤ 23) (fun _ => true) cs).bind
        fun r => runFmtToks toks { f with hour := some r.1 } r.2
    | .minute =>
      (readNumField (fun v => v ≤ 59) (fun _ => true) cs).bind
        fun r => runFmtToks toks { f with minute := some r.1 } r.2
    | .second =>
      (readNumField (fun v => v ≤ 59) (fun _ => true) cs).bind
        fun r => runFmtToks toks { f with second := some r.1 } r.2
    | .tzoff =>
      (readTzOff cs).bind fun r => runFmtToks toks { f with tz := some r.1 } r.2

/-- `datetime.strptime`: run the format, fill unset fields with the
1900-01-01 defaults, then apply the constructor's range checks. -/
def strptime (fmt : List FmtTok) (s : String) : Option DateTime :=
  (runFmtToks fmt {} s.data).bind fun f =>
    let t : DateTime :=
      { year := f.year.getD 1900, month := f.month.getD 1, day := f.day.getD 1,
        hour := f.hour.getD 0, minute := f.minute.getD 0,
        second := f.second.getD 0, usec := 0, tz := f.tz }
    if t.validRanges then some t else none

/-! ## Publish-time extraction (`ArticleExtractor`) -/

/-- The ten format strings of `ArticleExtractor._parse_time`, in
order. -/
def parseTimeFormats : List (List FmtTok) :=
  [ [.year4, .lit '-', .month, .lit '-', .day, .litT, .hour, .lit ':', .minute,
     .lit ':', .second, .tzoff],
    [.year4, .lit '-', .month, .lit '-', .day, .litT, .hour, .lit ':', .minute,
     .lit ':', .second],
    [.year4, .lit '-', .month, .lit '-', .day, .ws, .hour, .lit ':', .minute,
     .lit ':', .second],
    [.year4, .lit '-', .month, .lit '-', .day, .ws, .hour, .lit ':', .minute],
    [.year4, .lit '-', .month, .lit '-', .day],
    [.year4, .lit '/', .month, .lit '/', .day, .ws, .hour, .lit ':', .minute,
     .lit ':', .second],
    [.year4, .lit '/', .month, .lit '/', .day, .ws, .hour, .lit ':', .minute],
    [.year4, .lit '/', .month, .lit '/', .day],
    [.month, .lit '月', .day, .lit '日', .ws, .hour, .lit ':', .minute],
    [.month, .lit '月', .day, .lit '日'] ]

/-- Try an ordered list of formats; the first success wins. -/
def firstFormat : List (List FmtTok) → String → Option DateTime
  | [], _ => none
  | fmt :: fmts, s =>
    match strptime fmt s with
    | some t => some t
    | none => firstFormat fmts s

/-- `ArticleExtractor._parse_time`: empty input yields nothing, else
the first matching format of the cascade. -/
def parseTimeStr (s : String) : Option DateTime :=
  if s = "" then none else firstFormat parseTimeFormats s

/-- Match exactly `k` digits. -/
def matchDigits (k : Nat) (cs : List Char) : Option (List Char × List Char) :=
  let pre := cs.take k
  if pre.length = k && pre.all isDigitChar then some (pre, cs.drop k) else none

/-- Match one literal character. -/
def matchLit (c : Char) : List Char → Option (List Char × List Char)
  | x :: xs => if x = c then some ([c], xs) else none
  | [] => none

/-- Greedy `\s*`. -/
def matchWsStar (cs : List Char) : Option (List Char × List Char) :=
  some (cs.takeWhile isSpaceChar, cs.dropWhile isSpaceChar)

/-- Sequential composition of matchers. -/
def seqM (m1 m2 : List Char → Option (List Char × List Char))
    (cs : List Char) : Option (List Char × List Char) :=
  (m1 cs).bind fun r1 => (m2 r1.2).map fun r2 => (r1.1 ++ r2.1, r2.2)

/-- `\d{4}-\d{2}-\d{2}\s*\d{2}:\d{2}:\d{2}`. -/
def patIsoFull : List Char → Option (List Char × List Char) :=
  seqM (matchDigits 4) (seqM (matchLit '-') (seqM (matchDigits 2)
    (seqM (matchLit '-') (seqM (matchDigits 2) (seqM matchWsStar
    (seqM (matchDigits 2) (seqM (matchLit ':') (seqM (matchDigits 2)
    (seqM (matchLit ':') (matchDigits 2))))))))))

/-- `\d{4}-\d{2}-\d{2}\s*\d{2}:\d{2}`. -/
def patIsoMinutes : List Char → Option (List Char × List Char) :=
  seqM (matchDigits 4) (seqM (matchLit '-') (seqM (matchDigits 2)
    (seqM (matchLit '-') (seqM (matchDigits 2) (seqM matchWsStar
    (seqM (matchDigits 2) (seqM (matchLit ':') (matchDigits 2))))))))

/-- `\d{4}-\d{2}-\d{2}`. -/
def patIsoDate : List Char → Option (List Char × List Char) :=
  seqM (matchDigits 4) (seqM (matchLit '-') (seqM (matchDigits 2)
    (seqM (matchLit '-') (matchDigits 2))))

/-- `\d{4}/\d{2}/\d{2}`. -/
def patSlashDate : List Char → Option (List Char × List Char) :=
  seqM (matchDigits 4) (seqM (matchLit '/') (seqM (matchDigits 2)
    (seqM (matchLit '/') (matchDigits 2))))

/-- `\d{2}月\d{2}日\s*\d{2}:\d{2}`. -/
def patCnFull : List Char → Option (List Char × List Char) :=
  seqM (matchDigits 2) (seqM (matchLit '月') (seqM (matchDigits 2)
    (seqM (matchLit '日') (seqM matchWsStar
    (seqM (matchDigits 2) (seqM (matchLit ':') (matchDigits 2)))))))

/-- `\d{2}月\d{2}日`. -/
def patCnDate : List Char → Option (List Char × List Char) :=
  seqM (matchDigits 2) (seqM (matchLit '月') (seqM (matchDigits 2)
    (matchLit '日')))

/-- The six `time_patterns` regexes of `_extract_publish_time`, as
matchers anchored at the current position, in source order. -/
def timePatterns : List (List Char → Option (List Char × List Char)) :=
  [patIsoFull, patIsoMinutes, patIsoDate, patSlashDate, patCnFull, patCnDate]

/-- `re.search`: leftmost position where the matcher succeeds, returning
the matched substring. -/
def reSearch (m : List Char → Option (List Char × List Char)) :
    List Char → Option (List Char)
  | [] => (m []).map (·.1)
  | c :: cs =>
    match m (c :: cs) with
    | some r => some r.1
    | none => reSearch m cs

/-- Python truthiness of an optional string. -/
def truthy : Option String → Bool
  | none => false
  | some s => s ≠ ""

/-- The inner pattern loop over one selector's text: a matched
substring that parses ends the whole extraction; a matched substring
that fails to parse falls through to the next pattern. -/
def tryPatterns : List (List Char → Option (List Char × List Char)) →
    List Char → Option DateTime
  | [], _ => none
  | p :: ps, cs =>
    match reSearch p cs with
    | some mch =>
      match parseTimeStr ⟨mch⟩ with
      | some dt => some dt
      | none => tryPatterns ps cs
    | none => tryPatterns ps cs

/-- The selector loop of `_extract_publish_time`: each selector with a
matched element has its text scanned with all patterns. -/
def trySelectors : List (Option String) → Option DateTime
  | [] => none
  | none :: rest => trySelectors rest
  | some text :: rest =>
    match tryPatterns timePatterns text.data with
    | some dt => some dt
    | none => trySelectors rest

/-- The document facts `_extract_publish_time` queries: the
`article:published_time` meta tag's `content`, the `pubdate` meta
tag's `content`, the first `<time>` element's `datetime` attribute
(each absent when the tag or attribute is missing), and the text of
the first element matched by each of the eight class-based time
selectors, in selector order. -/
structure TimeDoc where
  metaPublishedTime : Option String
  metaPubdate : Option String
  timeDatetime : Option String
  selectorTexts : List (Option String)

/-- `ArticleExtractor._extract_publish_time`: each meta/time stage, when
its tag is present with non-empty content, returns the parse of that
content directly; only the selector stage falls through on parse
failure. -/
def extract_publish_time (doc : TimeDoc) : Option DateTime :=
  if truthy doc.metaPublishedTime then parseTimeStr (doc.metaPublishedTime.getD "")
  else if truthy doc.metaPubdate then parseTimeStr (doc.metaPubdate.getD "")
  else if truthy doc.timeDatetime then parseTimeStr (doc.timeDatetime.getD "")
  else trySelectors doc.selectorTexts

/-! ## Article data model (`src/models.py`) -/

structure NewsArticle where
  id : Option Int := none
  title : String := ""
  url : String := ""
  source : String := ""
  category : String := ""
  sourceType : String := ""
  publishTime : Option DateTime := none
  summary : Option String := none
  content : Option String := none
  crawledTime : DateTime
  isPush : Bool := false
  pushTime : Option DateTime := none
deriving DecidableEq, Repr

/-- The dictionary produced by `NewsArticle.to_dict` (note: no `id`
key); datetimes are carried as ISO strings, absent values as `None`. -/
structure ArticleDict where
  title : String
  url : String
  source : String
  category : String
  source_type : String
  publish_time : Option String
  summary : Option String
  content : Option String
  crawled_time : String
  is_push : Bool
  push_time : Option String
deriving DecidableEq, Repr

/-- `NewsArticle.to_dict`. -/
def NewsArticle.to_dict (a : NewsArticle) : ArticleDict :=
  { title := a.title, url := a.url, source := a.source, category := a.category,
    source_type := a.sourceType,
    publish_time := match a.publishTime with
                    | some t => some t.isoformat
                    | none => none,
    summary := a.summary, content := a.content,
    crawled_time := a.crawledTime.isoformat,
    is_push := a.isPush,
    push_time := match a.pushTime with
                 | some t => some t.isoformat
                 | none => none }

/-- `datetime.fromisoformat(v) if v-is-truthy else None`, raising
`ValueError` (as `Except.error`) on an unparsable non-empty string. -/
def parseOptDT : Option String → Except String (Option DateTime)
  | none => Except.ok none
  | some s =>
    if s = "" then Except.ok none
    else
      match fromisoformat s with
      | some t => Except.ok (some t)
      | none => Except.error "ValueError"

/-- `NewsArticle.from_dict`; `now` is the `datetime.now()` fallback used
when the `crawled_time` entry is falsy. -/
def NewsArticle.from_dict (d : ArticleDict) (now : DateTime) :
    Except String NewsArticle :=
  (parseOptDT d.publish_time).bind fun pt =>
    (parseOptDT (some d.crawled_time)).bind fun ct =>
      (parseOptDT d.push_time).map fun pu =>
        { id := none, title := d.title, url := d.url, source := d.source,
          category := d.category, sourceType := d.source_type,
          publishTime := pt, summary := d.summary, content := d.content,
          crawledTime := ct.getD now, isPush := d.is_push, pushTime := pu }

/-! ## Deduplicator (`src/processors/deduplicator.py`)

The three index structures are modelled as lists: the two Python sets as
lists without duplicates (`insertIfAbsent`), the `defaultdict(list)`
title index as an association list with append-to-bucket. -/

structure Deduplicator where
  seen_urls : List String
  seen_hashes : List String
  title_index : List (String × List String)
deriving DecidableEq, Repr

/-- `Deduplicator.__init__`. -/
def Deduplicator.init : Deduplicator := ⟨[], [], []⟩

/-- Set insertion: adding an element already present leaves the set
unchanged. -/
def insertIfAbsent (l : List String) (x : String) : List String :=
  if x ∈ l then l else l ++ [x]

/-- `defaultdict(list)` bucket append. -/
def indexAppend : List (String × List String) → String → String →
    List (String × List String)
  | [], k, v => [(k, [v])]
  | (k', vs) :: rest, k, v =>
    if k' = k then (k', vs ++ [v]) :: rest
    else (k', vs) :: indexAppend rest k v

/-- `Deduplicator._normalize_title`: lowercase, strip every character
that is neither a word character nor whitespace, collapse whitespace
runs to single spaces. -/
def normalize_title (title : String) : String :=
  if title = "" then ""
  else
    let lowered := (pyLower title).data
    let cleaned := lowered.filter fun c => isWordChar c || isSpaceChar c
    ⟨List.intercalate [' '] (splitWs cleaned)⟩

/-- `Deduplicator.add_seen`: always registers the URL; registers the
normalized-title fingerprint only for a truthy title. -/
def Deduplicator.add_seen (d : Deduplicator) (url title : String) :
    Deduplicator :=
  let d1 := { d with seen_urls := insertIfAbsent d.seen_urls url }
  if title ≠ "" then
    { d1 with title_index := indexAppend d1.title_index (normalize_title title) url }
  else d1

/-- `Deduplicator.is_seen`: URL match, else (for a truthy title)
normalized-title key match. -/
def Deduplicator.is_seen (d : Deduplicator) (url title : String) : Bool :=
  if url ∈ d.seen_urls then true
  else if title ≠ "" then (d.title_index.lookup (normalize_title title)).isSome
  else false

/-- `str(optional-datetime)` as interpolated by the f-string in
`_compute_content_hash`. -/
def pyStrOptDT : Option DateTime → String
  | none => "None"
  | some t => t.pyStr

/-- `hashlib.md5(content).hexdigest()` modelled as an injective digest
of the content string (the identity); every equality or inequality of
digests proved below is an equality or inequality of the underlying
content strings. -/
def md5hex (s : String) : String := s

/-- Python `s[:100]`: the first 100 characters of a string. -/
def head100 (s : String) : String :=
  ⟨s.data.take 100⟩

/-- The `|summary[:100]` suffix appended to the hash content for a
truthy summary, empty otherwise. -/
def summarySeg : Option String → String
  | some s => if s ≠ "" then "|" ++ head100 s else ""
  | none => ""

/-- `Deduplicator._compute_content_hash`:
`title|source|publish_time`, plus `|summary[:100]` for a truthy
summary. -/
def compute_content_hash (a : NewsArticle) : String :=
  md5hex (a.title ++ "|" ++ a.source ++ "|" ++ pyStrOptDT a.publishTime ++
    summarySeg a.summary)

/-- The state update performed when `deduplicate` keeps an article:
`add_seen(url, title)` followed by recording the content hash. -/
def afterKeep (d : Deduplicator) (a : NewsArticle) : Deduplicator :=
  let d1 := d.add_seen a.url a.title
  { d1 with seen_hashes := insertIfAbsent d1.seen_hashes (compute_content_hash a) }

/-- `Deduplicator.deduplicate`: filter in input order, skipping seen
URLs/titles and repeated content hashes, marking each kept article. -/
def deduplicate : Deduplicator → List NewsArticle →
    List NewsArticle × Deduplicator
  | d, [] => ([], d)
  | d, a :: rest =>
    if d.is_seen a.url a.title then deduplicate d rest
    else if compute_content_hash a ∈ d.seen_hashes then deduplicate d rest
    else
      let r := deduplicate (afterKeep d a) rest
      (a :: r.1, r.2)

/-- `Deduplicator.load_from_database`: bulk-add URLs to the URL set. -/
def Deduplicator.load_from_database (d : Deduplicator) (urls : List String) :
    Deduplicator :=
  { d with seen_urls := urls.foldl insertIfAbsent d.seen_urls }

/-- `Deduplicator.clear`. -/
def Deduplicator.clear (_ : Deduplicator) : Deduplicator := ⟨[], [], []⟩

/-! ## RSS feed-URL probing (`src/spiders/rss_spider.py`) -/

/-- An HTTP response as `_get_feed_url` inspects it: only the
`Content-Type` header matters (`_make_request` returning `None` is
modelled by the fetch function returning `none`). -/
structure HttpResponse where
  contentType : Option String
deriving Repr

/-- `scheme://authority` of a URL: the characters up to the first `/`
after the `://` marker. -/
def originChars : List Char → List Char
  | [] => []
  | ':' :: '/' :: '/' :: rest => ':' :: '/' :: '/' :: rest.takeWhile (· ≠ '/')
  | c :: rest => c :: originChars rest

/-- `urllib.parse.urljoin(base, path)` for the root-relative probe
paths used by `_get_feed_url`: the base's scheme and authority with the
path replaced. -/
def urljoinRoot (base path : String) : String :=
  ⟨originChars base.data ++ path.data⟩

/-- The `common_paths` probed by `_get_feed_url`, in order. -/
def common_paths : List String :=
  ["/rss", "/feed", "/feed.xml", "/rss.xml", "/atom.xml", "/rss/feed.xml"]

/-- `'xml' in response.headers.get('Content-Type', '').lower()`. -/
def hasXmlContentType (r : HttpResponse) : Bool :=
  containsSub "xml".data (pyLower (r.contentType.getD "")).data

/-- The probe loop of `_get_feed_url` over a list of candidate paths. -/
def probePaths (baseUrl : String) (fetch : String → Option HttpResponse) :
    List String → Option String
  | [] => none
  | p :: ps =>
    let url := urljoinRoot baseUrl p
    match fetch url with
    | some resp =>
      if hasXmlContentType resp then some url else probePaths baseUrl fetch ps
    | none => probePaths baseUrl fetch ps

/-- `RSSSpider._get_feed_url`: a truthy configured `rss_url` wins,
otherwise the first conventional path whose response carries an
XML-indicating content type. -/
def get_feed_url (rssUrl : Option String) (baseUrl : String)
    (fetch : String → Option HttpResponse) : Option String :=
  if truthy rssUrl then some (rssUrl.getD "")
  else probePaths baseUrl fetch common_paths

/-- `RSSSpider._crawl_impl`: no feed URL means no articles; otherwise
the feed is parsed (`parseFeed` raising models a `feedparser` failure,
per-entry `Except` models `_parse_entry` raising, `Option` its `None`
result) and the first `maxItems` entries yield articles in order. -/
def rss_crawl_impl (rssUrl : Option String) (baseUrl : String)
    (fetch : String → Option HttpResponse)
    (parseFeed : String → Except String (List (Except String (Option NewsArticle))))
    (maxItems : Nat) : List NewsArticle :=
  match get_feed_url rssUrl baseUrl fetch with
  | none => []
  | some fu =>
    match parseFeed fu with
    | .error _ => []
    | .ok entries =>
      (entries.take maxItems).foldl
        (fun acc e =>
          match e with
          | .ok (some a) => acc ++ [a]
          | _ => acc) []

/-! ## Orchestrator loop (`src/scheduler.py`)

One `SiteStep` models one `site_config` entry together with the
behaviour of the per-source stages that can raise: `WebsiteConfig`
construction, spider construction plus `spider.crawl()`, and
`db.save_crawl_result`. -/

structure SiteStep where
  name : String
  category : String
  sourceType : String
  mkDescriptor : Except String Unit
  crawl : Except String (List NewsArticle)
  saveResult : Except String Unit

/-- The observable fields of a persisted `CrawlResult`. -/
structure CrawlResultRec where
  source_name : String
  category : String
  source_type : String
  success : Bool
  articles_count : Nat
deriving DecidableEq, Repr

/-- Accumulated state of the `_crawl_all_websites` loop. -/
structure OrchState where
  dedup : Deduplicator
  allArticles : List NewsArticle
  outcomes : List CrawlResultRec

/-- One iteration of the `_crawl_all_websites` loop: any stage raising
is caught and the loop continues, keeping the effects of the stages
already executed; `success` is computed from the deduplicated list
(the loop rebinds `articles` to the dedup survivors before building the
`CrawlResult`). -/
def processSite (st : OrchState) (s : SiteStep) : OrchState :=
  match s.mkDescriptor with
  | .error _ => st
  | .ok _ =>
    match s.crawl with
    | .error _ => st
    | .ok arts =>
      let r := deduplicate st.dedup arts
      let st1 := { st with dedup := r.2, allArticles := st.allArticles ++ r.1 }
      let outcome : CrawlResultRec :=
        { source_name := s.name, category := s.category,
          source_type := s.sourceType,
          success := decide (0 < r.1.length), articles_count := r.1.length }
      match s.saveResult with
      | .error _ => st1
      | .ok _ => { st1 with outcomes := st1.outcomes ++ [outcome] }

/-- `NewsScheduler._crawl_all_websites`. -/
def crawl_all_websites (d : Deduplicator) (sites : List SiteStep) : OrchState :=
  sites.foldl processSite { dedup := d, allArticles := [], outcomes := [] }

/-- `NewsScheduler.run_daily_crawl` (also the body of `run_once`):
the whole body is wrapped in `try/except Exception`, so an exception
from the source-list provider is swallowed — but then the final
`return all_articles` reads a local that was never bound and raises
`UnboundLocalError`.  A raising seed query (`_load_seen_urls`) is
caught internally and leaves the index unseeded; raising post-crawl
steps (save/notify/report) are caught after `all_articles` is bound. -/
def run_daily_crawl (provider : Except String (List SiteStep))
    (seedUrls : Except String (List String)) (d : Deduplicator)
    (postSteps : Except String Unit) : Except String (List NewsArticle) :=
  match provider with
  | .error _ => .error "UnboundLocalError: all_articles"
  | .ok sites =>
    let d1 := match seedUrls with
              | .ok urls => d.load_from_database urls
              | .error _ => d
    match postSteps with
    | .error _ => .ok (crawl_all_websites d1 sites).allArticles
    | .ok _ => .ok (crawl_all_websites d1 sites).allArticles

/-! ## Concrete sample inputs for witnesses and counterexamples -/

def dtSample : DateTime := ⟨2026, 1, 22, 8, 0, 0, 0, none⟩

/-- A minimal article (publish time absent, summary absent). -/
def artU : NewsArticle := { title := "a", url := "u", source := "s", crawledTime := dtSample }

/-- Title `a|b`, source `c`: its fingerprint content is `a|b|c|None`. -/
def artPipeA : NewsArticle :=
  { title := "a|b", source := "c", url := "u1", crawledTime := dtSample }

/-- Title `a`, source `b|c`: its fingerprint content is also
`a|b|c|None`. -/
def artPipeB : NewsArticle :=
  { title := "a", source := "b|c", url := "u2", crawledTime := dtSample }

def artSameUrlA : NewsArticle :=
  { title := "first headline words", url := "https://example.com/x",
    source := "s1", crawledTime := dtSample }

def artSameUrlB : NewsArticle :=
  { title := "second headline words", url := "https://example.com/x",
    source := "s2", crawledTime := dtSample }

/-- A source whose spider yields one article that dedup then removes. -/
def siteSeen : SiteStep := ⟨"src", "cat", "kind", .ok (), .ok [artU], .ok ()⟩

/-- A source whose spider yields one fresh article. -/
def siteFresh : SiteStep := ⟨"src2", "cat2", "kind2", .ok (), .ok [artPipeA], .ok ()⟩

/-- A document with an unparsable published-time meta tag and a valid
`<time datetime="...">` element. -/
def docMetaGarbage : TimeDoc :=
  { metaPublishedTime := some "not a date", metaPubdate := none,
    timeDatetime := some "2026-01-22T08:00:00", selectorTexts := [] }

/-- A document whose first present marker is the `pubdate` meta tag. -/
def docPubdateOnly : TimeDoc :=
  { metaPublishedTime := none, metaPubdate := some "also not a date",
    timeDatetime := some "2026-01-22T08:00:00", selectorTexts := [] }

/-- A document whose first present marker is the `<time>` element. -/
def docTimeElemOnly : TimeDoc :=
  { metaPublishedTime := none, metaPubdate := none,
    timeDatetime := some "2026-01-22T08:00:00", selectorTexts := [] }

/-- Summary of 101 characters: 100 `x`s then `A`. -/
def artLongSumA : NewsArticle :=
  { artSameUrlA with summary := some ⟨List.replicate 100 'x' ++ ['A']⟩ }

/-- Same first 100 characters as `artLongSumA`, then `B`, and a
different URL and content. -/
def artLongSumB : NewsArticle :=
  { artSameUrlA with
    url := "https://example.com/y"
    content := some "body"
    summary := some ⟨List.replicate 100 'x' ++ ['B']⟩ }

def artRound : NewsArticle :=
  { id := some 7, title := "T", url := "https://example.com/a", source := "S",
    category := "finance", sourceType := "agency",
    publishTime := some ⟨2026, 1, 22, 8, 0, 0, 0, none⟩,
    summary := some "sum", content := none,
    crawledTime := ⟨2026, 1, 22, 9, 30, 15, 123456, some 480⟩,
    isPush := true, pushTime := none }

/-- Validity of an optional datetime field (vacuous when absent). -/
def OptValid : Option DateTime → Prop
  | none => True
  | some t => t.valid

instance : ∀ o, Decidable (OptValid o) := fun o => by
  cases o <;> (unfold OptValid; infer_instance)

/-- One probe attempt of `_get_feed_url`: the fetched response exists
and its content type indicates XML. -/
def probeOk (baseUrl : String) (fetch : String → Option HttpResponse)
    (p : String) : Bool :=
  match fetch (urljoinRoot baseUrl p) with
  | some r => hasXmlContentType r
  | none => false

/-! ## Decoding and round-trip lemmas for the datetime model -/


theorem charDigit_digitChar {d : Nat} (h : d < 10) :
    charDigit (digitChar d) = d := by
  interval_cases d <;> rfl

theorem isDigitChar_digitChar {d : Nat} (h : d < 10) :
    isDigitChar (digitChar d) = true := by
  interval_cases d <;> rfl

theorem digits_length_le {w n : Nat} (h : n < 10 ^ w) :
    (Nat.digits 10 n).length ≤ w := by
  rcases eq_or_ne n 0 with hn | hn
  · simp [hn]
  · rw [Nat.digits_len 10 n (by norm_num) hn]
    have := (Nat.lt_pow_iff_log_lt (by norm_num) hn).mp h
    omega

theorem padNum_length {w n : Nat} (h : n < 10 ^ w) :
    (padNum w n).length = w := by
  have hle := digits_length_le h
  simp [padNum, padNumLE]
  omega

theorem padNum_all_digits {w n : Nat} :
    ∀ c ∈ padNum w n, isDigitChar c = true := by
  intro c hc
  simp only [padNum, List.mem_reverse, padNumLE, List.mem_append,
    List.mem_map, List.mem_replicate] at hc
  rcases hc with ⟨d, hd, rfl⟩ | ⟨-, rfl⟩
  · exact isDigitChar_digitChar (Nat.digits_lt_base (by norm_num) hd)
  · rfl

theorem ofDigits_replicate_zero (k : Nat) :
    Nat.ofDigits 10 (List.replicate k 0) = 0 := by
  induction k with
  | zero => rfl
  | succ k ih => simp [List.replicate_succ, Nat.ofDigits_cons, ih]

theorem readNum_padNum {w n : Nat} (_h : n < 10 ^ w) :
    readNum (padNum w n) = n := by
  unfold readNum padNum
  rw [List.reverse_reverse]
  unfold readNumLE padNumLE
  rw [List.map_append, List.map_map, List.map_replicate]
  have hmap : (Nat.digits 10 n).map (charDigit ∘ digitChar) =
      (Nat.digits 10 n).map id := by
    apply List.map_congr_left
    intro d hd
    exact charDigit_digitChar (Nat.digits_lt_base (by norm_num) hd)
  have h0 : charDigit '0' = 0 := rfl
  rw [hmap, List.map_id, h0, Nat.ofDigits_append, Nat.ofDigits_digits,
    ofDigits_replicate_zero]
  simp

theorem readFixed_padNum {w n : Nat} (h : n < 10 ^ w) (rest : List Char) :
    readFixed w (padNum w n ++ rest) = some (n, rest) := by
  have hlen := padNum_length h
  have htake : (padNum w n ++ rest).take w = padNum w n := by
    rw [List.take_append_of_le_length (by omega), List.take_of_length_le (by omega)]
  have hdrop : (padNum w n ++ rest).drop w = rest := by
    rw [List.drop_append_of_le_length (by omega), List.drop_of_length_le (by omega),
      List.nil_append]
  simp only [readFixed, htake, hdrop, hlen]
  rw [List.all_eq_true.mpr padNum_all_digits]
  simp [readNum_padNum h]

theorem readFixed_padNum_nil {w n : Nat} (h : n < 10 ^ w) :
    readFixed w (padNum w n) = some (n, []) := by
  have := readFixed_padNum h []
  rwa [List.append_nil] at this

theorem expectChar_cons (c : Char) (rest : List Char) :
    expectChar c (c :: rest) = some rest := by
  simp [expectChar]

/-- A digit character is not a sign, separator or dot. -/
theorem isDigitChar_ne {c : Char} (h : isDigitChar c = true) :
    c ≠ '+' ∧ c ≠ '-' ∧ c ≠ ':' ∧ c ≠ '.' := by
  refine ⟨?_, ?_, ?_, ?_⟩ <;> rintro rfl <;> simp [isDigitChar] at h

theorem splitAtSign_no_sign {cs : List Char}
    (h : ∀ c ∈ cs, c ≠ '+' ∧ c ≠ '-') :
    splitAtSign cs = (cs, none) := by
  induction cs with
  | nil => rfl
  | cons c cs ih =>
    have hc := h c (by simp)
    have hrec := ih (fun x hx => h x (by simp [hx]))
    simp [splitAtSign, hc.1, hc.2, hrec]

theorem splitAtSign_append_sign {xs ys : List Char} {s : Char}
    (hx : ∀ c ∈ xs, c ≠ '+' ∧ c ≠ '-') (hs : s = '+' ∨ s = '-') :
    splitAtSign (xs ++ s :: ys) = (xs, some (s, ys)) := by
  induction xs with
  | nil =>
    rcases hs with rfl | rfl <;> simp [splitAtSign]
  | cons c cs ih =>
    have hc := hx c (by simp)
    have hrec := ih (fun x h => hx x (by simp [h]))
    simp [splitAtSign, hc.1, hc.2, hrec]

theorem data_mk (l : List Char) : (String.mk l).data = l := rfl

theorem timeChars_mem (t : DateTime) {c : Char} (hc : c ∈ t.timeChars) :
    isDigitChar c = true ∨ c = ':' ∨ c = '.' := by
  by_cases hu : t.usec = 0
  · simp only [DateTime.timeChars, hu, if_true, List.append_nil, List.mem_append,
      List.mem_cons] at hc
    rcases hc with h | h | h | h | h
    · exact Or.inl (padNum_all_digits c h)
    · exact Or.inr (Or.inl h)
    · exact Or.inl (padNum_all_digits c h)
    · exact Or.inr (Or.inl h)
    · exact Or.inl (padNum_all_digits c h)
  · simp only [DateTime.timeChars, hu, if_false, List.mem_append, List.mem_cons] at hc
    rcases hc with h | h | h | h | h | h | h
    · exact Or.inl (padNum_all_digits c h)
    · exact Or.inr (Or.inl h)
    · exact Or.inl (padNum_all_digits c h)
    · exact Or.inr (Or.inl h)
    · exact Or.inl (padNum_all_digits c h)
    · exact Or.inr (Or.inr h)
    · exact Or.inl (padNum_all_digits c h)

theorem timeChars_no_sign (t : DateTime) :
    ∀ c ∈ t.timeChars, c ≠ '+' ∧ c ≠ '-' := by
  intro c hc
  rcases timeChars_mem t hc with h | h | h
  · exact ⟨(isDigitChar_ne h).1, (isDigitChar_ne h).2.1⟩
  · subst h; exact ⟨by decide, by decide⟩
  · subst h; exact ⟨by decide, by decide⟩

theorem parseFrac_usec {u : Nat} (hu : u < 10 ^ 6) :
    parseFrac (if u = 0 then [] else '.' :: padNum 6 u) = some u := by
  by_cases h0 : u = 0
  · simp [h0, parseFrac]
  · rw [if_neg h0]
    have hlen := padNum_length hu
    simp only [parseFrac, hlen]
    rw [List.all_eq_true.mpr padNum_all_digits]
    simp [readNum_padNum hu]

theorem parseTimeOfDay_timeChars {t : DateTime} (hh : t.hour < 10 ^ 2)
    (hmi : t.minute < 10 ^ 2) (hs : t.second < 10 ^ 2) (hus : t.usec < 10 ^ 6) :
    parseTimeOfDay t.timeChars = some (t.hour, t.minute, t.second, t.usec) := by
  unfold DateTime.timeChars parseTimeOfDay
  rw [readFixed_padNum hh]
  simp only [Option.some_bind]
  rw [readFixed_padNum hmi]
  simp only [Option.some_bind]
  rw [readFixed_padNum hs]
  simp only [Option.some_bind]
  rw [parseFrac_usec hus]
  rfl

theorem daysInMonth_le (y m : Nat) : daysInMonth y m ≤ 31 := by
  unfold daysInMonth
  split_ifs <;> omega

theorem valid_bounds {t : DateTime} (h : t.valid) :
    t.year < 10 ^ 4 ∧ t.month < 10 ^ 2 ∧ t.day < 10 ^ 2 ∧ t.hour < 10 ^ 2 ∧
      t.minute < 10 ^ 2 ∧ t.second < 10 ^ 2 ∧ t.usec < 10 ^ 6 := by
  unfold DateTime.valid DateTime.validRanges at h
  simp only [Bool.and_eq_true, decide_eq_true_eq] at h
  have hdm := daysInMonth_le t.year t.month
  norm_num
  omega

theorem valid_tz_bound {y mo dy hr mi se us : Nat} {m : Int}
    (h : DateTime.valid ⟨y, mo, dy, hr, mi, se, us, some m⟩) :
    m.natAbs ≤ 1439 := by
  unfold DateTime.valid DateTime.validRanges at h
  simp only [Bool.and_eq_true, decide_eq_true_eq] at h
  omega

theorem parseTzBody_print {m : Int} (hm : m.natAbs ≤ 1439) :
    parseTzBody (if m < 0 then '-' else '+')
      (padNum 2 (m.natAbs / 60) ++ ':' :: padNum 2 (m.natAbs % 60)) = some m := by
  have e2 : (10 : ℕ) ^ 2 = 100 := by norm_num
  have h1 : m.natAbs / 60 < 10 ^ 2 := by rw [e2]; omega
  have h2 : m.natAbs % 60 < 10 ^ 2 := by rw [e2]; omega
  unfold parseTzBody
  rw [readFixed_padNum h1]
  simp only [Option.some_bind]
  rw [expectChar_cons]
  simp only [Option.some_bind]
  rw [readFixed_padNum_nil h2]
  simp only [Option.some_bind]
  have hpm : (('+' : Char) = '-') = False := by decide
  have hmm : (('-' : Char) = '-') = True := by decide
  by_cases hneg : m < 0
  · simp only [hneg, if_true, hmm]
    congr 1
    omega
  · simp only [hneg, if_false, hpm]
    congr 1
    omega

/-- `fromisoformat` inverts `isoformat` on every representable
datetime. -/
theorem fromisoformat_isoformat {t : DateTime} (h : t.valid) :
    fromisoformat t.isoformat = some t := by
  obtain ⟨hy, hmo, hdy, hhr, hmi, hse, hus⟩ := valid_bounds h
  have hnosign := timeChars_no_sign t
  have htod := parseTimeOfDay_timeChars hhr hmi hse hus
  obtain ⟨y, mo, dy, hr, mi, se, us, tz⟩ := t
  dsimp only at hy hmo hdy hhr hmi hse hus
  unfold DateTime.isoformat DateTime.dateChars fromisoformat
  rw [data_mk]
  simp only [List.append_assoc, List.cons_append]
  rw [readFixed_padNum hy]
  simp only [Option.some_bind]
  rw [expectChar_cons]
  simp only [Option.some_bind]
  rw [readFixed_padNum hmo]
  simp only [Option.some_bind]
  rw [expectChar_cons]
  simp only [Option.some_bind]
  rw [readFixed_padNum hdy]
  simp only [Option.some_bind]
  rcases tz with _ | m
  · have htzn : DateTime.tzChars ⟨y, mo, dy, hr, mi, se, us, none⟩ = [] := rfl
    have hsp : splitAtSign
        (DateTime.timeChars ⟨y, mo, dy, hr, mi, se, us, none⟩ ++
          DateTime.tzChars ⟨y, mo, dy, hr, mi, se, us, none⟩) =
        (DateTime.timeChars ⟨y, mo, dy, hr, mi, se, us, none⟩, none) := by
      rw [htzn, List.append_nil]
      exact splitAtSign_no_sign hnosign
    simp only [hsp, htod, Option.some_bind]
    have hvr : DateTime.validRanges ⟨y, mo, dy, hr, mi, se, us, none⟩ = true := h
    simp [hvr]
  · have hmabs := valid_tz_bound h
    have htzs : DateTime.tzChars ⟨y, mo, dy, hr, mi, se, us, some m⟩ =
        (if m < 0 then '-' else '+') ::
          (padNum 2 (m.natAbs / 60) ++ ':' :: padNum 2 (m.natAbs % 60)) := rfl
    have hsp : splitAtSign
        (DateTime.timeChars ⟨y, mo, dy, hr, mi, se, us, some m⟩ ++
          DateTime.tzChars ⟨y, mo, dy, hr, mi, se, us, some m⟩) =
        (DateTime.timeChars ⟨y, mo, dy, hr, mi, se, us, some m⟩,
          some ((if m < 0 then '-' else '+'),
            padNum 2 (m.natAbs / 60) ++ ':' :: padNum 2 (m.natAbs % 60))) := by
      rw [htzs]
      exact splitAtSign_append_sign hnosign
        (by by_cases hneg : m < 0 <;> simp [hneg])
    simp only [hsp, htod, Option.some_bind]
    rw [parseTzBody_print hmabs]
    have hvr : DateTime.validRanges ⟨y, mo, dy, hr, mi, se, us, some m⟩ = true := h
    simp [hvr]

theorem isoformat_ne_empty (t : DateTime) : t.isoformat ≠ "" := by
  intro he
  have hdat : (t.isoformat).data = [] := by rw [he]
  simp [DateTime.isoformat, data_mk, DateTime.dateChars] at hdat

/-! ## Deduplicator lemmas -/

theorem mem_insertIfAbsent {l : List String} {x y : String} :
    y ∈ insertIfAbsent l x ↔ y ∈ l ∨ y = x := by
  unfold insertIfAbsent
  split_ifs with h
  · constructor
    · exact Or.inl
    · rintro (hy | rfl)
      · exact hy
      · exact h
  · simp

theorem mem_foldl_insertIfAbsent {urls l : List String} {y : String} :
    y ∈ urls.foldl insertIfAbsent l ↔ y ∈ l ∨ y ∈ urls := by
  induction urls generalizing l with
  | nil => simp
  | cons u us ih =>
    simp only [List.foldl_cons, ih, mem_insertIfAbsent, List.mem_cons]
    tauto

theorem add_seen_seen_urls (d : Deduplicator) (u t : String) :
    (d.add_seen u t).seen_urls = insertIfAbsent d.seen_urls u := by
  unfold Deduplicator.add_seen
  split_ifs <;> rfl

theorem is_seen_init (u t : String) :
    Deduplicator.init.is_seen u t = false := by
  unfold Deduplicator.is_seen Deduplicator.init
  simp [List.lookup]

theorem is_seen_of_mem (d : Deduplicator) (u t : String)
    (h : u ∈ d.seen_urls) : d.is_seen u t = true := by
  unfold Deduplicator.is_seen
  simp [h]

theorem deduplicate_cons_skip_seen {d : Deduplicator} {a : NewsArticle}
    (h1 : d.is_seen a.url a.title = true) (rest : List NewsArticle) :
    deduplicate d (a :: rest) = deduplicate d rest := by
  simp only [deduplicate, h1, if_true]

theorem deduplicate_cons_skip_hash {d : Deduplicator} {a : NewsArticle}
    (h1 : d.is_seen a.url a.title = false)
    (h2 : compute_content_hash a ∈ d.seen_hashes) (rest : List NewsArticle) :
    deduplicate d (a :: rest) = deduplicate d rest := by
  simp only [deduplicate, h1, h2, if_true, if_false, Bool.false_eq_true]

theorem deduplicate_cons_keep {d : Deduplicator} {a : NewsArticle}
    (h1 : d.is_seen a.url a.title = false)
    (h2 : compute_content_hash a ∉ d.seen_hashes) (rest : List NewsArticle) :
    deduplicate d (a :: rest) =
      (a :: (deduplicate (afterKeep d a) rest).1,
        (deduplicate (afterKeep d a) rest).2) := by
  simp only [deduplicate, h1, h2, if_true, if_false, Bool.false_eq_true]

theorem lookup_indexAppend_isSome
    (idx : List (String × List String)) (k v : String) :
    ((indexAppend idx k v).lookup k).isSome = true := by
  induction idx with
  | nil => simp [indexAppend, List.lookup]
  | cons p rest ih =>
    obtain ⟨k', vs⟩ := p
    by_cases hk : k' = k
    · subst hk
      simp [indexAppend, List.lookup]
    · have hk' : (k == k') = false := by
        simp [beq_iff_eq]
        exact fun he => hk he.symm
      simp [indexAppend, hk, List.lookup, hk', ih]

/-! ## Claim theorems -/

/-- C9: `load_from_database(urls)` adds exactly the given URLs to the
seen-URL set (membership afterwards is membership before or
membership in `urls`), while the normalized-title index and the
content-fingerprint set are identical before and after the call. -/
theorem load_from_database_only_urls (d : Deduplicator) (urls : List String) :
    (∀ u, u ∈ (d.load_from_database urls).seen_urls ↔
        u ∈ d.seen_urls ∨ u ∈ urls) ∧
    (d.load_from_database urls).title_index = d.title_index ∧
    (d.load_from_database urls).seen_hashes = d.seen_hashes :=
  ⟨fun _ => mem_foldl_insertIfAbsent, rfl, rfl⟩

/-- C3 counterexample: with both applications made to the same
`Deduplicator` in sequence, a fresh one-article list is returned whole
by the first `deduplicate` and emptied by the second, so
`deduplicate(deduplicate(X))` differs from `deduplicate(X)`. -/
theorem deduplicate_sequential_not_idempotent :
    (deduplicate (deduplicate Deduplicator.init [artU]).2
        (deduplicate Deduplicator.init [artU]).1).1 ≠
      (deduplicate Deduplicator.init [artU]).1 := by
  decide

/-- C3 amended: `deduplicate` is idempotent when both applications
start from the same `Deduplicator` state (for example a fresh instance
each time): re-deduplicating the output from the original state
reproduces the same output and the same final state.  (Applied in
sequence to the same instance, the second application instead drops
every article the first one kept.) -/
theorem deduplicate_idempotent_same_state (d : Deduplicator)
    (X : List NewsArticle) :
    deduplicate d (deduplicate d X).1 = deduplicate d X := by
  induction X generalizing d with
  | nil => rfl
  | cons a rest ih =>
    by_cases h1 : d.is_seen a.url a.title = true
    · rw [deduplicate_cons_skip_seen h1, ih]
    · rw [Bool.not_eq_true] at h1
      by_cases h2 : compute_content_hash a ∈ d.seen_hashes
      · rw [deduplicate_cons_skip_hash h1 h2, ih]
      · rw [deduplicate_cons_keep h1 h2, deduplicate_cons_keep h1 h2, ih]

/-- C4 counterexample: the fingerprint content string does not escape
the `|` separator, so the articles with `(title, source)` equal to
`("a|b", "c")` and `("a", "b|c")` — equal publish times and equal
(absent) summaries, but different titles and sources — share one
content fingerprint, refuting "fingerprints equal only if the four
fields agree". -/
theorem content_hash_collision_across_fields :
    compute_content_hash artPipeA = compute_content_hash artPipeB ∧
    artPipeA.title ≠ artPipeB.title ∧ artPipeA.source ≠ artPipeB.source ∧
    artPipeA.publishTime = artPipeB.publishTime ∧
    artPipeA.summary = artPipeB.summary := by
  decide

theorem head100_eq_empty_iff (s : String) : head100 s = "" ↔ s = "" := by
  constructor
  · intro h
    have hdat : s.data.take 100 = [] := congrArg String.data h
    rcases List.take_eq_nil_iff.mp hdat with h0 | hnil
    · norm_num at h0
    · obtain ⟨l⟩ := s
      have hl : l = [] := hnil
      rw [hl]
  · intro h
    rw [h]
    rfl

/-- C4 amended: agreement on title, source, publish_time and the first
100 characters of the summary guarantees equal content fingerprints;
the converse fails because the unescaped `|` separator lets different
field splits build the same content string. -/
theorem content_hash_of_field_agreement (A B : NewsArticle)
    (ht : A.title = B.title) (hs : A.source = B.source)
    (hp : A.publishTime = B.publishTime)
    (hsum : A.summary.map head100 = B.summary.map head100) :
    compute_content_hash A = compute_content_hash B := by
  unfold compute_content_hash
  rw [ht, hs, hp]
  suffices hseg : summarySeg A.summary = summarySeg B.summary by rw [hseg]
  rcases hA : A.summary with _ | sA <;> rcases hB : B.summary with _ | sB
  · rfl
  · rw [hA, hB] at hsum
    simp at hsum
  · rw [hA, hB] at hsum
    simp at hsum
  · rw [hA, hB] at hsum
    simp only [Option.map_some', Option.some.injEq] at hsum
    simp only [summarySeg]
    by_cases hsA : sA = ""
    · have hsB : sB = "" := by
        refine (head100_eq_empty_iff sB).mp ?_
        rw [← hsum, hsA]
        rfl
      rw [hsA, hsB]
    · have hsB : sB ≠ "" := by
        intro he
        refine hsA ((head100_eq_empty_iff sA).mp ?_)
        rw [hsum, he]
        rfl
      rw [if_pos hsA, if_pos hsB, hsum]

theorem content_hash_of_field_agreement_witness :
    compute_content_hash artLongSumA = compute_content_hash artLongSumB :=
  content_hash_of_field_agreement artLongSumA artLongSumB rfl rfl rfl
    (by decide)

/-- C7 counterexample: the titles `"!!!"` and `""` differ only in
punctuation and normalize identically (to the empty string), but after
`add_seen("a", "!!!")` the query `is_seen("b", "")` is false: a falsy
title skips the title-index lookup entirely. -/
theorem title_dedup_fails_on_empty_normalization :
    normalize_title "!!!" = normalize_title "" ∧
    (Deduplicator.init.add_seen "a" "!!!").is_seen "b" "" = false := by
  decide

/-- C7 amended: for non-empty titles T1 and T2 that normalize
identically, `is_seen(u2, T2)` returns true after `add_seen(u1, T1)`
on any starting state and any URLs; the property fails only when one
of the titles is the empty string. -/
theorem is_seen_after_add_seen_normalized (d : Deduplicator)
    (u1 u2 T1 T2 : String) (h1 : T1 ≠ "") (h2 : T2 ≠ "")
    (hn : normalize_title T1 = normalize_title T2) :
    (d.add_seen u1 T1).is_seen u2 T2 = true := by
  unfold Deduplicator.add_seen Deduplicator.is_seen
  rw [if_pos h1]
  by_cases hu : u2 ∈ (insertIfAbsent d.seen_urls u1)
  · simp [hu]
  · simp only [hu, if_false, if_pos h2, ← hn]
    simp [lookup_indexAppend_isSome]

theorem is_seen_after_add_seen_normalized_witness :
    (Deduplicator.init.add_seen "https://a" "Hello,  WORLD!").is_seen
        "https://b" "hello world" = true :=
  is_seen_after_add_seen_normalized Deduplicator.init "https://a" "https://b"
    "Hello,  WORLD!" "hello world" (by decide) (by decide) (by decide)

/-- C6: deduplicating `[A, B]` with `A.url = B.url` on a fresh
`Deduplicator` keeps exactly the first occurrence `[A]`; and for every
state and every input list the output of `deduplicate` is an
order-preserving sublist of the input (the input minus the skipped
items). -/
theorem deduplicate_first_wins_and_sublist :
    (∀ A B : NewsArticle, A.url = B.url →
        (deduplicate Deduplicator.init [A, B]).1 = [A]) ∧
    ∀ (d : Deduplicator) (X : List NewsArticle),
      List.Sublist (deduplicate d X).1 X := by
  constructor
  · intro A B hurl
    have h1 : Deduplicator.init.is_seen A.url A.title = false := is_seen_init _ _
    have hnh : compute_content_hash A ∉ Deduplicator.init.seen_hashes := by
      simp [Deduplicator.init]
    have hmem : B.url ∈ (afterKeep Deduplicator.init A).seen_urls := by
      show B.url ∈ (Deduplicator.init.add_seen A.url A.title).seen_urls
      rw [add_seen_seen_urls, mem_insertIfAbsent]
      exact Or.inr hurl.symm
    rw [deduplicate_cons_keep h1 hnh,
      deduplicate_cons_skip_seen (is_seen_of_mem _ _ _ hmem)]
    rfl
  · intro d X
    induction X generalizing d with
    | nil => simp [deduplicate]
    | cons a rest ih =>
      by_cases h1 : d.is_seen a.url a.title = true
      · rw [deduplicate_cons_skip_seen h1]
        exact (ih d).cons a
      · rw [Bool.not_eq_true] at h1
        by_cases h2 : compute_content_hash a ∈ d.seen_hashes
        · rw [deduplicate_cons_skip_hash h1 h2]
          exact (ih d).cons a
        · rw [deduplicate_cons_keep h1 h2]
          exact List.Sublist.cons₂ a (ih _)

theorem deduplicate_first_wins_and_sublist_witness :
    (deduplicate Deduplicator.init [artSameUrlA, artSameUrlB]).1 =
        [artSameUrlA] ∧
    List.Sublist (deduplicate Deduplicator.init [artSameUrlA, artSameUrlB]).1
      [artSameUrlA, artSameUrlB] :=
  ⟨deduplicate_first_wins_and_sublist.1 artSameUrlA artSameUrlB rfl,
   deduplicate_first_wins_and_sublist.2 Deduplicator.init
     [artSameUrlA, artSameUrlB]⟩

/-- C1 counterexample: when the source-list provider call raises, the
`try/except` swallows the original exception but the final
`return all_articles` reads a local that was never bound, so the run
raises `UnboundLocalError` — an exception does propagate out of the
run. -/
theorem run_daily_crawl_raises_on_provider_failure :
    run_daily_crawl (.error "config failure") (.ok []) Deduplicator.init
        (.ok ()) = .error "UnboundLocalError: all_articles" := rfl

/-- C1 amended: whenever the source-list provider call returns
normally, a full run terminates normally and returns a list of
articles — for every seed-query outcome, every per-source behaviour
(descriptor construction or spider call raising included) and every
post-crawl outcome; only a raising provider call makes the run itself
raise (an `UnboundLocalError` from the final `return`). -/
theorem run_daily_crawl_ok_of_provider_ok (sites : List SiteStep)
    (seed : Except String (List String)) (d : Deduplicator)
    (post : Except String Unit) :
    ∃ arts, run_daily_crawl (.ok sites) seed d post = .ok arts := by
  unfold run_daily_crawl
  cases post with
  | error e => exact ⟨_, rfl⟩
  | ok u => exact ⟨_, rfl⟩

/-- C2 counterexample: a source whose spider returns one article that
deduplication then removes (its URL was seeded as seen) is recorded
with `success = false` and zero articles, refuting "success iff the
spider produced at least one article, independently of dedup". -/
theorem crawl_outcome_ignores_spider_count :
    siteSeen.crawl = .ok [artU] ∧
    (crawl_all_websites (Deduplicator.init.load_from_database ["u"])
        [siteSeen]).outcomes =
      [{ source_name := "src", category := "cat", source_type := "kind",
         success := false, articles_count := 0 }] :=
  ⟨rfl, by decide⟩

/-- C2 amended: for a source whose stages all return normally, the
recorded `CrawlOutcome` has `success = true` precisely when at least
one article survived deduplication (the loop rebinds `articles` to the
dedup survivors before computing `success` and the stored count), not
when the spider produced articles. -/
theorem crawl_outcome_success_iff_survivors (d : Deduplicator) (s : SiteStep)
    (arts : List NewsArticle) (hm : s.mkDescriptor = .ok ())
    (hc : s.crawl = .ok arts) (hs : s.saveResult = .ok ()) :
    (crawl_all_websites d [s]).outcomes =
      [{ source_name := s.name, category := s.category,
         source_type := s.sourceType,
         success := decide (0 < (deduplicate d arts).1.length),
         articles_count := (deduplicate d arts).1.length }] := by
  unfold crawl_all_websites processSite
  simp [hm, hc, hs]

theorem crawl_outcome_success_iff_survivors_witness :
    (crawl_all_websites Deduplicator.init [siteFresh]).outcomes =
      [{ source_name := "src2", category := "cat2", source_type := "kind2",
         success := decide (0 < (deduplicate Deduplicator.init [artPipeA]).1.length),
         articles_count := (deduplicate Deduplicator.init [artPipeA]).1.length }] :=
  crawl_outcome_success_iff_survivors Deduplicator.init siteFresh [artPipeA]
    rfl rfl rfl

/-- C5 counterexample: with a present but unparsable
`article:published_time` meta tag and a valid `<time datetime>`
element, extraction returns nothing although the `<time>` value parses
— the meta stage does not fall through to later stages on parse
failure. -/
theorem extract_publish_time_stops_at_meta :
    extract_publish_time docMetaGarbage = none ∧
    parseTimeStr "2026-01-22T08:00:00" =
      some ⟨2026, 1, 22, 8, 0, 0, 0, none⟩ := by
  decide

/-- C5 amended: the extractor tries the stages in the documented order,
but each of the three meta/`<time>` stages commits when its marker is
present with non-empty content: (1) a present non-empty published-time
meta tag makes the result exactly the parse of its content — even a
failed parse, i.e. no publish time — without trying later stages;
(2) with the published-time meta falsy, a present non-empty pub-date
meta commits likewise; (3) with both metas falsy, a present non-empty
`<time>` datetime attribute commits likewise; only the class-selector
stage falls through failed parses: (4) a pattern whose match fails to
parse passes control to the remaining patterns on the same text, and
(5) a selector text in which no pattern yields a parse passes control
to the remaining selectors. -/
theorem extract_publish_time_stage_commits :
    (∀ (doc : TimeDoc) (c : String), doc.metaPublishedTime = some c →
        c ≠ "" → extract_publish_time doc = parseTimeStr c) ∧
    (∀ (doc : TimeDoc) (c : String), truthy doc.metaPublishedTime = false →
        doc.metaPubdate = some c → c ≠ "" →
        extract_publish_time doc = parseTimeStr c) ∧
    (∀ (doc : TimeDoc) (c : String), truthy doc.metaPublishedTime = false →
        truthy doc.metaPubdate = false → doc.timeDatetime = some c →
        c ≠ "" → extract_publish_time doc = parseTimeStr c) ∧
    (∀ (p : List Char → Option (List Char × List Char))
        (ps : List (List Char → Option (List Char × List Char)))
        (cs m : List Char), reSearch p cs = some m →
        parseTimeStr ⟨m⟩ = none →
        tryPatterns (p :: ps) cs = tryPatterns ps cs) ∧
    (∀ (t : String) (rest : List (Option String)),
        tryPatterns timePatterns t.data = none →
        trySelectors (some t :: rest) = trySelectors rest) := by
  refine ⟨?_, ?_, ?_, ?_, ?_⟩
  · intro doc c hc hne
    unfold extract_publish_time
    rw [hc]
    simp [truthy, hne]
  · intro doc c h1 hc hne
    unfold extract_publish_time
    rw [h1, hc]
    simp [truthy, hne]
  · intro doc c h1 h2 hc hne
    unfold extract_publish_time
    rw [h1, h2, hc]
    simp [truthy, hne]
  · intro p ps cs m hsearch hparse
    simp only [tryPatterns, hsearch, hparse]
  · intro t rest h
    simp only [trySelectors, h]

theorem extract_publish_time_stage_commits_witness :
    extract_publish_time docMetaGarbage = parseTimeStr "not a date" ∧
    extract_publish_time docPubdateOnly = parseTimeStr "also not a date" ∧
    extract_publish_time docTimeElemOnly =
      parseTimeStr "2026-01-22T08:00:00" ∧
    tryPatterns timePatterns "9999-19-99 23:59:59".data =
      tryPatterns [patIsoMinutes, patIsoDate, patSlashDate, patCnFull,
        patCnDate] "9999-19-99 23:59:59".data ∧
    trySelectors [some "no timestamps here", some "2026-01-22 08:00"] =
      trySelectors [some "2026-01-22 08:00"] :=
  ⟨extract_publish_time_stage_commits.1 docMetaGarbage "not a date" rfl
     (by decide),
   extract_publish_time_stage_commits.2.1 docPubdateOnly "also not a date"
     (by decide) rfl (by decide),
   extract_publish_time_stage_commits.2.2.1 docTimeElemOnly
     "2026-01-22T08:00:00" (by decide) (by decide) rfl (by decide),
   extract_publish_time_stage_commits.2.2.2.1 patIsoFull
     [patIsoMinutes, patIsoDate, patSlashDate, patCnFull, patCnDate]
     ("9999-19-99 23:59:59".data) ("9999-19-99 23:59:59".data)
     (by decide) (by decide),
   extract_publish_time_stage_commits.2.2.2.2 "no timestamps here"
     [some "2026-01-22 08:00"] (by decide)⟩

theorem probePaths_eq_find (baseUrl : String)
    (fetch : String → Option HttpResponse) (ps : List String) :
    probePaths baseUrl fetch ps =
      (ps.find? (probeOk baseUrl fetch)).map (urljoinRoot baseUrl) := by
  induction ps with
  | nil => rfl
  | cons p ps ih =>
    unfold probePaths
    cases hf : fetch (urljoinRoot baseUrl p) with
    | none =>
      have hp : probeOk baseUrl fetch p = false := by
        unfold probeOk
        rw [hf]
      simp [List.find?, hp, hf, ih]
    | some r =>
      by_cases hx : hasXmlContentType r = true
      · have hp : probeOk baseUrl fetch p = true := by
          unfold probeOk
          rw [hf]
          exact hx
        simp [List.find?, hp, hf, hx]
      · rw [Bool.not_eq_true] at hx
        have hp : probeOk baseUrl fetch p = false := by
          unfold probeOk
          rw [hf]
          exact hx
        simp [List.find?, hp, hf, hx, ih]

/-- C8: with `rss_url` unset, feed discovery probes `/rss`, `/feed`,
`/feed.xml`, `/rss.xml`, `/atom.xml`, `/rss/feed.xml` resolved against
the base URL in exactly that order, returning the first probed URL
whose response carries an XML-indicating content type; when no probe
qualifies, discovery yields nothing and the spider's crawl produces an
empty list. -/
theorem get_feed_url_first_xml_probe :
    (∀ baseUrl fetch, get_feed_url none baseUrl fetch =
        (common_paths.find? (probeOk baseUrl fetch)).map (urljoinRoot baseUrl)) ∧
    ∀ baseUrl fetch parseFeed maxItems,
      get_feed_url none baseUrl fetch = none →
        rss_crawl_impl none baseUrl fetch parseFeed maxItems = [] := by
  constructor
  · intro baseUrl fetch
    unfold get_feed_url
    rw [probePaths_eq_find]
    rfl
  · intro baseUrl fetch parseFeed maxItems h
    unfold rss_crawl_impl
    rw [h]

theorem get_feed_url_first_xml_probe_witness :
    get_feed_url none "https://example.com" (fun _ => none) =
        (common_paths.find?
            (probeOk "https://example.com" (fun _ => none))).map
          (urljoinRoot "https://example.com") ∧
    rss_crawl_impl none "https://example.com" (fun _ => none)
        (fun _ => .ok []) 50 = [] :=
  ⟨get_feed_url_first_xml_probe.1 _ _,
   get_feed_url_first_xml_probe.2 "https://example.com" (fun _ => none)
     (fun _ => .ok []) 50 (by decide)⟩

theorem parseOptDT_isoformat {t : DateTime} (h : t.valid) :
    parseOptDT (some t.isoformat) = .ok (some t) := by
  simp only [parseOptDT, if_neg (isoformat_ne_empty t), fromisoformat_isoformat h]

/-- C10: `from_dict(to_dict(a))` reproduces `a` exactly on every field
except `id`, which is `None` in the result since `to_dict` omits it:
title, url, source, category, source_type, publish_time, summary,
content, crawled_time, is_push and push_time round-trip unchanged,
datetime fields through ISO serialization and absent optionals as
`None` (stated for articles whose datetime fields are representable
Python datetimes). -/
theorem from_dict_to_dict_roundtrip (a : NewsArticle) (now : DateTime)
    (hct : a.crawledTime.valid) (hpt : OptValid a.publishTime)
    (hpu : OptValid a.pushTime) :
    NewsArticle.from_dict a.to_dict now = .ok { a with id := none } := by
  obtain ⟨i, ti, u, so, ca, st, pt, su, co, ct, ip, pu⟩ := a
  dsimp only at hct hpt hpu
  unfold NewsArticle.to_dict NewsArticle.from_dict
  rcases pt with _ | t1 <;> rcases pu with _ | t2 <;>
    simp only [OptValid] at hpt hpu <;>
      simp [parseOptDT, hct, hpt, hpu, Except.bind, Except.map,
        isoformat_ne_empty, fromisoformat_isoformat]

theorem from_dict_to_dict_roundtrip_witness :
    NewsArticle.from_dict artRound.to_dict dtSample =
      .ok { artRound with id := none } :=
  from_dict_to_dict_roundtrip artRound dtSample (by decide) (by decide)
    (by decide)

end NewsCollector
